import Mathlib

/-!
Verification of the interaction/state layer of the conrod immediate-mode GUI
toolkit (sarvex/conrod).  The definitions below are a shallow embedding of the
Rust sources `src/text_box.rs`, `src/toggle.rs`, `src/label.rs`, `src/macros.rs`
and `src/position.rs`.

Modelling conventions:
* `f64` quantities (coordinates, widths) are modelled as `ℚ` (exact arithmetic;
  floating-point rounding is out of scope).
* Rust `String` buffers are modelled as `List Char`; the sources mix byte
  indices with character indices, which coincide for single-byte characters
  (the spec notes this as a latent defect), so indices are modelled uniformly
  as character indices.
* The character-cache collaborator (glyph metrics backend) is an abstract
  width function `FontSize → Char → ℚ`.
* Rust panics are modelled as `Except.error`.
-/

/-- Character index into a text buffer (`pub type Idx = usize;` in text_box.rs). -/
abbrev Idx := Nat

/-- Font size in points (`pub type FontSize = u32;` in label.rs). -/
abbrev FontSize := Nat

/-- A 2-d point (`Point = [f64; 2]`). -/
abbrev Point := ℚ × ℚ

/-- Widget dimensions (`Dimensions = [f64; 2]`). -/
abbrev Dimensions := ℚ × ℚ

/-- Pointer-button level (`mouse::ButtonState`), as read via `mouse.left`. -/
inductive ButtonState where
  | Down
  | Up
deriving DecidableEq, Repr

/-- Modelled from the spec: mouse.rs is not under src/; the input snapshot
exposes the pointer position and the primary-button state, the only fields the
widgets read (`mouse.pos`, `mouse.left`). -/
structure Mouse where
  pos : Point
  left : ButtonState
deriving DecidableEq, Repr

namespace rectangle

/-- Modelled from the spec: rectangle.rs is not under src/; the three-valued
visual state (normal / highlighted / active) consumed by the drawing layer,
with the variant names used by toggle.rs (`rectangle::State::Clicked` is the
spec's Active-visual). -/
inductive State where
  | Normal
  | Highlighted
  | Clicked
deriving DecidableEq, Repr

/-- Modelled from the spec: rectangle.rs is not under src/; `is_over` is the
axis-aligned containment test, a point on the boundary counting as inside. -/
def is_over (pos : Point) (mouse_pos : Point) (dim : Dimensions) : Bool :=
  decide (pos.1 ≤ mouse_pos.1 ∧ mouse_pos.1 ≤ pos.1 + dim.1 ∧
          pos.2 ≤ mouse_pos.2 ∧ mouse_pos.2 ≤ pos.2 + dim.2)

end rectangle

namespace toggle

/-- State of the Toggle widget (toggle.rs lines 17-22). -/
inductive State where
  | Normal
  | Highlighted
  | Clicked
deriving DecidableEq, Repr

/-- Render-state projection of the toggle (toggle.rs lines 24-33). -/
def State.as_rectangle_state : State → rectangle.State
  | State.Normal => rectangle.State.Normal
  | State.Highlighted => rectangle.State.Highlighted
  | State.Clicked => rectangle.State.Clicked

/-- Transition function of the toggle state machine (toggle.rs lines 38-50). -/
def get_new_state (is_over : Bool) (prev : State) (mouse : Mouse) : State :=
  match is_over, prev, mouse.left with
  | true, State.Normal, ButtonState.Down => State.Normal
  | true, _, ButtonState.Down => State.Clicked
  | true, _, ButtonState.Up => State.Highlighted
  | false, State.Clicked, ButtonState.Down => State.Clicked
  | _, _, _ => State.Normal

/-- Transition table of spec section 4.5, written row by row from the spec's
words, to be compared with the code's `toggle.get_new_state`. -/
def specTable : Bool → State → ButtonState → State
  | true, State.Normal, ButtonState.Down => State.Normal
  | true, State.Highlighted, ButtonState.Down => State.Clicked
  | true, State.Clicked, ButtonState.Down => State.Clicked
  | true, _, ButtonState.Up => State.Highlighted
  | false, State.Clicked, ButtonState.Down => State.Clicked
  | false, _, _ => State.Normal

end toggle

namespace text_box

/-- Anchor of a drag selection (text_box.rs lines 64-69). -/
inductive Anchor where
  | None
  | Start
  | End
deriving DecidableEq, Repr

/-- A selection range with its drag anchor (text_box.rs lines 43-48). -/
structure Selection where
  anchor : Anchor
  start : Idx
  «end» : Idx
deriving DecidableEq, Repr

/-- Zero-width selection (pure caret) at `idx` (text_box.rs lines 51-53). -/
def Selection.from_index (idx : Idx) : Selection :=
  ⟨Anchor.Start, idx, idx⟩

/-- Selection from an unordered pair of bounds (text_box.rs lines 55-61). -/
def Selection.from_range (start «end» : Idx) : Selection :=
  if start < «end» then ⟨Anchor.Start, start, «end»⟩
  else ⟨Anchor.End, «end», start⟩

/-- Interaction state of the text box while uncaptured (text_box.rs lines 71-75). -/
inductive Uncaptured where
  | Highlighted
  | Normal
deriving DecidableEq, Repr

/-- State of the text_box widget (text_box.rs lines 37-41). -/
inductive State where
  | Capturing (s : Selection)
  | Uncaptured (s : Uncaptured)
deriving DecidableEq, Repr

/-- Hit element of the TextBox widget (text_box.rs lines 78-83). -/
inductive Element where
  | Char (idx : Idx)
  | Nill
  | Rect
deriving DecidableEq, Repr

/-- Render-state projection of the text box (text_box.rs lines 85-96). -/
def State.as_rectangle_state : State → rectangle.State
  | State.Capturing _ => rectangle.State.Normal
  | State.Uncaptured Uncaptured.Highlighted => rectangle.State.Highlighted
  | State.Uncaptured Uncaptured.Normal => rectangle.State.Normal

/-- Transition function of the text-box state machine (text_box.rs lines 165-213). -/
def get_new_state (over_elem : Element) (prev_state : State) (mouse : Mouse) : State :=
  match prev_state with
  | State.Capturing prev =>
    match mouse.left with
    | ButtonState.Down =>
      match over_elem with
      | Element.Nill =>
          if prev.anchor = Anchor.None then State.Uncaptured Uncaptured.Normal
          else prev_state
      | Element.Rect =>
          if prev.anchor = Anchor.None then State.Capturing (Selection.from_index 0)
          else prev_state
      | Element.Char idx =>
          match prev.anchor with
          | Anchor.None => State.Capturing (Selection.from_index idx)
          | Anchor.Start => State.Capturing (Selection.from_range prev.start idx)
          | Anchor.End => State.Capturing (Selection.from_range prev.«end» idx)
    | ButtonState.Up => State.Capturing ⟨Anchor.None, prev.start, prev.«end»⟩
  | State.Uncaptured prev =>
    match mouse.left with
    | ButtonState.Down =>
      match over_elem with
      | Element.Nill => State.Uncaptured Uncaptured.Normal
      | Element.Rect =>
          match prev with
          | Uncaptured.Normal => prev_state
          | Uncaptured.Highlighted => State.Capturing (Selection.from_index 0)
      | Element.Char idx =>
          match prev with
          | Uncaptured.Normal => prev_state
          | Uncaptured.Highlighted => State.Capturing (Selection.from_index idx)
    | ButtonState.Up =>
      match over_elem with
      | Element.Nill => State.Uncaptured Uncaptured.Normal
      | Element.Char _ | Element.Rect =>
          match prev with
          | Uncaptured.Normal => State.Uncaptured Uncaptured.Highlighted
          | Uncaptured.Highlighted => prev_state

/-- Transition table of spec section 4.4, written row by row from the spec's
words, to be compared with the code's `text_box.get_new_state`.  `none` marks a
combination with no listed row (the table does not list
`Uncaptured(Highlighted), Nil, Down`). -/
def specTable : Element → State → ButtonState → Option State
  | Element.Nill, State.Capturing sel, ButtonState.Down =>
      match sel.anchor with
      | Anchor.None => some (State.Uncaptured Uncaptured.Normal)
      | _ => some (State.Capturing sel)
  | Element.Rect, State.Capturing sel, ButtonState.Down =>
      match sel.anchor with
      | Anchor.None => some (State.Capturing (Selection.from_index 0))
      | _ => some (State.Capturing sel)
  | Element.Char i, State.Capturing sel, ButtonState.Down =>
      match sel.anchor with
      | Anchor.None => some (State.Capturing (Selection.from_index i))
      | Anchor.Start => some (State.Capturing (Selection.from_range sel.start i))
      | Anchor.End => some (State.Capturing (Selection.from_range sel.«end» i))
  | _, State.Capturing sel, ButtonState.Up =>
      some (State.Capturing ⟨Anchor.None, sel.start, sel.«end»⟩)
  | Element.Nill, State.Uncaptured Uncaptured.Normal, ButtonState.Down =>
      some (State.Uncaptured Uncaptured.Normal)
  | Element.Rect, State.Uncaptured Uncaptured.Normal, ButtonState.Down =>
      some (State.Uncaptured Uncaptured.Normal)
  | Element.Char _, State.Uncaptured Uncaptured.Normal, ButtonState.Down =>
      some (State.Uncaptured Uncaptured.Normal)
  | Element.Rect, State.Uncaptured Uncaptured.Highlighted, ButtonState.Down =>
      some (State.Capturing (Selection.from_index 0))
  | Element.Char i, State.Uncaptured Uncaptured.Highlighted, ButtonState.Down =>
      some (State.Capturing (Selection.from_index i))
  | Element.Nill, State.Uncaptured Uncaptured.Highlighted, ButtonState.Down =>
      none
  | Element.Nill, State.Uncaptured _, ButtonState.Up =>
      some (State.Uncaptured Uncaptured.Normal)
  | _, State.Uncaptured Uncaptured.Normal, ButtonState.Up =>
      some (State.Uncaptured Uncaptured.Highlighted)
  | _, State.Uncaptured Uncaptured.Highlighted, ButtonState.Up =>
      some (State.Uncaptured Uncaptured.Highlighted)

end text_box

/-- Widget state tagged union (`widget::Widget`), one variant per widget kind
modelled here, as constructed in text_box.rs line 98 and toggle.rs line 35. -/
inductive Widget where
  | TextBox (s : text_box.State)
  | Toggle (s : toggle.State)
deriving DecidableEq, Repr

/-- Modelled from the spec: widget.rs is not under src/; `Widget::matches`
checks that two widget states carry the same variant tag (spec section 4.1,
the store's only integrity check). -/
def Widget.matches : Widget → Widget → Bool
  | Widget.TextBox _, Widget.TextBox _ => true
  | Widget.Toggle _, Widget.Toggle _ => true
  | _, _ => false

/-- Modelled from the spec: ui.rs is not under src/; the widget identity store
maps a stable identifier to its persisted state and last-drawn placement, plus
the per-frame input snapshot (pointer state) read by the widgets. -/
structure UiState where
  widgets : Nat → Option Widget
  places : Nat → Option (Point × Dimensions)
  mouse : Mouse

/-- Modelled from the spec: `Ui::get_widget(ui_id, default)` is the store's
get-or-create lookup (spec section 4.1 `get_or_create`), returning the stored
widget for the identifier or inserting and returning the given default. -/
def Ui.get_widget (ui : UiState) (ui_id : Nat) («default» : Widget) : UiState × Widget :=
  match ui.widgets ui_id with
  | some w => (ui, w)
  | none =>
      (⟨fun i => if i = ui_id then some «default» else ui.widgets i, ui.places, ui.mouse⟩,
       «default»)

/-- Modelled from the spec: `Ui::set_place` records the position and size used
for this frame's draw of the identifier (spec section 4.1). -/
def Ui.set_place (ui : UiState) (ui_id : Nat) (pos : Point) (dim : Dimensions) : UiState :=
  ⟨ui.widgets, fun i => if i = ui_id then some (pos, dim) else ui.places i, ui.mouse⟩

/-- Store write generated by `widget_fns!` (macros.rs lines 29-47): looks the
widget up (creating the module default if absent), panics — modelled as
`Except.error` — when the stored variant tag differs from the new state's tag,
otherwise overwrites the state and records the placement.  The `default`
argument is the module-specific default widget baked in by the macro. -/
def set_state (ui : UiState) (ui_id : Nat) (new_state : Widget) (pos : Point)
    (dim : Dimensions) («default» : Widget) : Except String UiState :=
  match Ui.get_widget ui ui_id «default» with
  | (ui1, st) =>
      if st.matches new_state then
        Except.ok (Ui.set_place
          ⟨fun i => if i = ui_id then some new_state else ui1.widgets i, ui1.places, ui1.mouse⟩
          ui_id pos dim)
      else
        Except.error "The Widget variant returned by Ui is different to that which was requested"

/-- Default Widget variant of the toggle module (toggle.rs line 35). -/
def toggle.default_widget : Widget := Widget.Toggle toggle.State.Normal

/-- Default Widget variant of the text-box module (text_box.rs line 98). -/
def text_box.default_widget : Widget :=
  Widget.TextBox (text_box.State.Uncaptured text_box.Uncaptured.Normal)

/-- Configuration fields of the Toggle builder (toggle.rs lines 53-65).  Colors
are RGBA quadruples; the callback, consumed only for its side effect, is
modelled by its presence (`Option Unit` for Rust's `Option<F>`). -/
structure Toggle where
  ui_id : Nat
  pos : Point
  dim : Dimensions
  maybe_callback : Option Unit
  maybe_color : Option (ℚ × ℚ × ℚ × ℚ)
  maybe_frame : Option ℚ
  maybe_frame_color : Option (ℚ × ℚ × ℚ × ℚ)
  maybe_label : Option (List Char)
  maybe_label_color : Option (ℚ × ℚ × ℚ × ℚ)
  maybe_label_font_size : Option Nat
  value : Bool
deriving DecidableEq, Repr

/-- Callback dispatch block of `Toggle::draw` (toggle.rs lines 159-167): with a
callback configured, the transition (is_over = true, prev = Clicked,
new = Highlighted) invokes it with the inverted boolean value; every other
combination, or an absent callback, invokes nothing.  The returned value is
the argument passed, `none` when no call happens. -/
def toggleCallbackCall (cb : Option Unit) (value : Bool) (is_over : Bool)
    (state new_state : toggle.State) : Option Bool :=
  match cb with
  | some _ =>
      match is_over, state, new_state with
      | true, toggle.State.Clicked, toggle.State.Highlighted =>
          some (match value with | true => false | false => true)
      | _, _, _ => none
  | none => none

/-- State-relevant effects of `Toggle::draw` (toggle.rs lines 143-193): fetch
the stored state (get-or-create with the module default, panicking — modelled
as `Except.error` — on a variant-tag mismatch), hit-test the pointer, run the
transition function, dispatch the callback, and persist the new state and this
frame's placement.  The rasterization calls (`rectangle::draw`,
`draw_with_centered_label`) and the color/frame computations that feed only
them are out-of-scope collaborators and produce no state effect; the builder
struct itself is never written, so it is returned unchanged. -/
def Toggle.draw (t : Toggle) (ui : UiState) :
    Except String (Toggle × UiState × Option Bool) :=
  match Ui.get_widget ui t.ui_id toggle.default_widget with
  | (ui1, Widget.Toggle state) =>
      let is_over := rectangle.is_over t.pos ui.mouse.pos t.dim
      let new_state := toggle.get_new_state is_over state ui.mouse
      match set_state ui1 t.ui_id (Widget.Toggle new_state) t.pos t.dim
          toggle.default_widget with
      | Except.ok ui2 =>
          Except.ok (t, ui2,
            toggleCallbackCall t.maybe_callback t.value is_over state new_state)
      | Except.error e => Except.error e
  | (_, _) =>
      Except.error "The Widget variant returned by uiontext is different to that which was requested"

/-- Callback argument produced by one frame's `Toggle::draw`, `none` when no
callback was invoked (or the draw panicked on an identifier collision). -/
def toggleDrawCallbackArg (t : Toggle) (ui : UiState) : Option Bool :=
  match Toggle.draw t ui with
  | Except.ok r => r.2.2
  | Except.error _ => none

/-- Accumulated advance width of a character sequence for a fixed width
function, the inner accumulation pattern shared by the metrics queries. -/
def sumW (cw : Char → ℚ) (l : List Char) : ℚ :=
  l.foldl (fun a ch => a + cw ch) 0

/-- Saturating truncation of an `f64` to a `u32` (Rust `as u32` cast):
truncation toward zero, negative values to 0, values past the `u32` range to
its maximum. -/
def rustCastU32 (q : ℚ) : Nat :=
  if q ≤ 0 then 0 else min (Int.toNat ⌊q⌋) (2 ^ 32 - 1)

namespace label

/-- Pixel width of a text (label.rs lines 17-23): folds over the characters
accumulating in a `u32` — each collaborator-reported advance width is cast to
`u32` (truncated) before being added, additions wrapping at 2^32 — and casts
the final accumulator back to `f64`. -/
def width (charW : FontSize → Char → ℚ) (size : FontSize) (text : List Char) : ℚ :=
  ((text.foldl (fun a ch => (a + rustCastU32 (charW size ch)) % 2 ^ 32) 0 : Nat) : ℚ)

end label

namespace text_box

/-- Caret-padding inset of the text area (text_box.rs line 100). -/
def TEXT_PADDING : ℚ := 5

/-- Position of a character in a text box (text_box.rs lines 103-116): x-offset
of the left edge of character `idx`, summing the advances of all preceding
characters, with `idx` silently clamped to the text length. -/
def cursor_position (charW : FontSize → Char → ℚ) (idx : Nat) (text_x : ℚ)
    (font_size : FontSize) (text : List Char) : Idx × ℚ :=
  if idx = 0 then (0, text_x)
  else
    let text_len := text.length
    let idx2 := if idx > text_len then text_len else idx
    (idx2, (text.take idx2).foldl (fun a ch => a + charW font_size ch) text_x)

/-- Character walk of `closest_idx` (text_box.rs lines 152-160): `x` is the
left edge of the current character (the loop's `prev_x` at entry), `left_x`
the previous character's midpoint threshold, `i` the current index; returns
the first character whose midpoint is at or after the pointer x, `none` when
the pointer is past every midpoint. -/
def closestIdxAux (cw : Char → ℚ) (mx : ℚ) :
    List Char → ℚ → ℚ → Nat → Option (Idx × ℚ)
  | [], _, _, _ => none
  | ch :: rest, x, left_x, i =>
      let char_w := cw ch
      let right_x := x + char_w / 2
      if mx > left_x ∧ mx ≤ right_x then some (i, x)
      else closestIdxAux cw mx rest (x + char_w) right_x (i + 1)

/-- Character index closest to the pointer (text_box.rs lines 142-162): index 0
when the pointer is at or left of the text start, otherwise the first
character whose midpoint is at or after the pointer x, falling through to
`(len, text_x + text_w)` past all characters. -/
def closest_idx (charW : FontSize → Char → ℚ) (mouse_pos : Point) (text_x : ℚ)
    (text_w : ℚ) (font_size : FontSize) (text : List Char) : Idx × ℚ :=
  if mouse_pos.1 ≤ text_x then (0, text_x)
  else
    match closestIdxAux (charW font_size) mouse_pos.1 text text_x text_x 0 with
    | some r => r
    | none => (text.length, text_x + text_w)

end text_box

lemma sumW_nil (cw : Char → ℚ) : sumW cw [] = 0 := rfl

lemma foldl_addW (cw : Char → ℚ) :
    ∀ (l : List Char) (a : ℚ), l.foldl (fun x ch => x + cw ch) a = a + sumW cw l := by
  intro l
  induction l with
  | nil => intro a; simp [sumW]
  | cons ch rest ih =>
      intro a
      have h0 : sumW cw (ch :: rest) = cw ch + sumW cw rest := by
        have h1 : sumW cw (ch :: rest) =
            List.foldl (fun x c => x + cw c) (0 + cw ch) rest := rfl
        rw [h1, ih (0 + cw ch)]
        ring
      rw [List.foldl_cons, ih (a + cw ch), h0]
      ring

lemma sumW_cons (cw : Char → ℚ) (ch : Char) (l : List Char) :
    sumW cw (ch :: l) = cw ch + sumW cw l := by
  have h1 : sumW cw (ch :: l) = List.foldl (fun x c => x + cw c) (0 + cw ch) l := rfl
  rw [h1, foldl_addW cw l (0 + cw ch)]
  ring

lemma sumW_nonneg (cw : Char → ℚ) :
    ∀ l : List Char, (∀ c ∈ l, 0 ≤ cw c) → 0 ≤ sumW cw l := by
  intro l
  induction l with
  | nil => intro _; simp [sumW_nil]
  | cons ch rest ih =>
      intro h
      rw [sumW_cons]
      have h1 : 0 ≤ cw ch := h ch (List.mem_cons_self ch rest)
      have h2 : 0 ≤ sumW cw rest := ih (fun c hc => h c (List.mem_cons_of_mem ch hc))
      linarith

lemma sumW_pos (cw : Char → ℚ) (ch : Char) (l : List Char)
    (h : ∀ c ∈ ch :: l, 0 < cw c) : 0 < sumW cw (ch :: l) := by
  rw [sumW_cons]
  have h1 : 0 < cw ch := h ch (List.mem_cons_self ch l)
  have h2 : 0 ≤ sumW cw l :=
    sumW_nonneg cw l (fun c hc => le_of_lt (h c (List.mem_cons_of_mem ch hc)))
  linarith

lemma closestIdxAux_spec (cw : Char → ℚ) :
    ∀ (l : List Char) (k : Nat) (x left : ℚ) (i : Nat),
      k ≤ l.length → (∀ c ∈ l, 0 < cw c) → left ≤ x → (1 ≤ k ∨ left < x) →
      text_box.closestIdxAux cw (x + sumW cw (l.take k)) l x left i =
        if k < l.length then some (i + k, x + sumW cw (l.take k)) else none := by
  intro l
  induction l with
  | nil =>
      intro k x left i hk _ _ _
      have hk0 : k = 0 := Nat.le_zero.mp (by simpa using hk)
      subst hk0
      simp [text_box.closestIdxAux]
  | cons ch rest ih =>
      intro k x left i hk hpos hle hdisj
      have hch : 0 < cw ch := hpos ch (List.mem_cons_self ch rest)
      cases k with
      | zero =>
          have hlx : left < x := by
            rcases hdisj with h1 | h2
            · omega
            · exact h2
          simp only [List.take_zero, sumW_nil]
          rw [if_pos (by simp)]
          simp only [text_box.closestIdxAux]
          rw [if_pos ⟨by linarith, by linarith⟩]
          simp
      | succ k' =>
          have hS' : 0 ≤ sumW cw (rest.take k') :=
            sumW_nonneg cw (rest.take k')
              (fun c hc => le_of_lt
                (hpos c (List.mem_cons_of_mem ch (List.take_subset k' rest hc))))
          simp only [List.take_succ_cons, sumW_cons]
          simp only [text_box.closestIdxAux]
          rw [if_neg (fun hcond => absurd hcond.2 (by push_neg; linarith))]
          have hmx : x + (cw ch + sumW cw (rest.take k')) =
              (x + cw ch) + sumW cw (rest.take k') := by ring
          rw [hmx]
          rw [ih k' (x + cw ch) (x + cw ch / 2) (i + 1)
            (by simpa using Nat.lt_succ_iff.mp (Nat.lt_succ_of_le hk))
            (fun c hc => hpos c (List.mem_cons_of_mem ch hc))
            (by linarith) (Or.inr (by linarith))]
          by_cases hlt : k' < rest.length
          · rw [if_pos hlt, if_pos (by simpa using Nat.succ_lt_succ hlt)]
            have e1 : i + 1 + k' = i + (k' + 1) := by omega
            rw [e1]
          · rw [if_neg hlt,
              if_neg (by simp only [List.length_cons]; omega)]

/-- C7 counterexample: with a collaborator metrics function reporting a zero
advance width, feeding `cursor_position 1` back into `closest_idx` returns 0,
not 1, for the one-character text "a" — the claimed round trip fails as
stated (it needs positive advance widths). -/
theorem claim_C7_counterexample :
    1 ≤ ("a".toList).length ∧
    (text_box.closest_idx (fun _ _ => (0 : ℚ))
        ((text_box.cursor_position (fun _ _ => (0 : ℚ)) 1 0 12 ("a".toList)).2, 0)
        0 (sumW (fun _ => (0 : ℚ)) ("a".toList)) 12 ("a".toList)).1 ≠ 1 := by
  constructor
  · decide
  · have hcp : (text_box.cursor_position (fun _ _ => (0 : ℚ)) 1 0 12 ("a".toList)).2 = 0 := by
      norm_num [text_box.cursor_position]
    rw [hcp]
    norm_num [text_box.closest_idx]

/-- C7 amended: provided every character of the text has a positive advance
width at the given size, feeding the x coordinate returned by
`cursor_position idx` back into `closest_idx` (same text start x, any text
width, same font size, same text) recovers `idx`, for every `idx ≤ len`. -/
theorem claim_C7_roundtrip (charW : FontSize → Char → ℚ) (fs : FontSize)
    (text : List Char) (tx tw my : ℚ) (idx : Nat)
    (hpos : ∀ c ∈ text, 0 < charW fs c) (hidx : idx ≤ text.length) :
    (text_box.closest_idx charW
      ((text_box.cursor_position charW idx tx fs text).2, my) tx tw fs text).1 = idx := by
  by_cases h0 : idx = 0
  · subst h0
    simp [text_box.cursor_position, text_box.closest_idx]
  · have h1 : 1 ≤ idx := Nat.one_le_iff_ne_zero.mpr h0
    have hnlt : ¬ (idx > text.length) := not_lt.mpr hidx
    have hcp : (text_box.cursor_position charW idx tx fs text).2 =
        tx + sumW (charW fs) (text.take idx) := by
      simp only [text_box.cursor_position, if_neg h0, hnlt, if_false]
      exact foldl_addW (charW fs) (text.take idx) tx
    have hSpos : 0 < sumW (charW fs) (text.take idx) := by
      rcases text with _ | ⟨ch, rest⟩
      · exact absurd (Nat.le_zero.mp (by simpa using hidx)) h0
      · rcases idx with _ | k
        · omega
        · rw [List.take_succ_cons]
          exact sumW_pos (charW fs) ch (rest.take k)
            (fun c hc => by
              rcases List.mem_cons.mp hc with h | h
              · subst h; exact hpos c (List.mem_cons_self c rest)
              · exact hpos c (List.mem_cons_of_mem ch (List.take_subset k rest h)))
    rw [hcp]
    have hgt : ¬ (tx + sumW (charW fs) (text.take idx) ≤ tx) := by linarith
    simp only [text_box.closest_idx, hgt, if_false]
    rw [closestIdxAux_spec (charW fs) text idx tx tx 0 hidx hpos (le_refl tx) (Or.inl h1)]
    by_cases hlt : idx < text.length
    · rw [if_pos hlt]
      simp
    · rw [if_neg hlt]
      have hlen : idx = text.length := Nat.le_antisymm hidx (not_lt.mp hlt)
      simp [hlen]

/-- Witness for C7: with unit advance widths and text "ab", index 1 round
trips through `cursor_position` and `closest_idx`. -/
theorem claim_C7_roundtrip_witness :
    (text_box.closest_idx (fun _ _ => (1 : ℚ))
      ((text_box.cursor_position (fun _ _ => (1 : ℚ)) 1 0 12 ("ab".toList)).2, 0)
      0 7 12 ("ab".toList)).1 = 1 :=
  claim_C7_roundtrip (fun _ _ => (1 : ℚ)) 12 ("ab".toList) 0 7 0 1
    (fun _ _ => one_pos) (by decide)

/-- Index delivered by the character walk, the fall-through default standing in
for `none`. -/
def ridx : Option (Idx × ℚ) → Nat → Nat
  | some p, _ => p.1
  | none, d => d

lemma closestIdxAux_ge (cw : Char → ℚ) (mx : ℚ) :
    ∀ (l : List Char) (x left : ℚ) (i : Nat) (j : Nat) (p : ℚ),
      text_box.closestIdxAux cw mx l x left i = some (j, p) → i ≤ j := by
  intro l
  induction l with
  | nil => intro x left i j p h; simp [text_box.closestIdxAux] at h
  | cons ch rest ih =>
      intro x left i j p h
      simp only [text_box.closestIdxAux] at h
      by_cases hc : mx > left ∧ mx ≤ x + cw ch / 2
      · rw [if_pos hc] at h
        have : i = j := by
          have := Option.some.inj h
          exact congrArg Prod.fst this
        omega
      · rw [if_neg hc] at h
        have := ih (x + cw ch) (x + cw ch / 2) (i + 1) j p h
        omega

lemma closestIdxAux_mono (cw : Char → ℚ) (m1 m2 : ℚ) (h12 : m1 ≤ m2) :
    ∀ (l : List Char) (x left1 left2 : ℚ) (i : Nat),
      left1 < m1 → left2 < m2 →
      ridx (text_box.closestIdxAux cw m1 l x left1 i) (i + l.length) ≤
        ridx (text_box.closestIdxAux cw m2 l x left2 i) (i + l.length) := by
  intro l
  induction l with
  | nil => intro x left1 left2 i _ _; simp [text_box.closestIdxAux, ridx]
  | cons ch rest ih =>
      intro x left1 left2 i h1 h2
      simp only [text_box.closestIdxAux]
      by_cases hm1 : m1 ≤ x + cw ch / 2
      · rw [if_pos ⟨h1, hm1⟩]
        cases h : text_box.closestIdxAux cw m2 rest (x + cw ch) (x + cw ch / 2) (i + 1) with
        | none =>
            by_cases hc2 : m2 > left2 ∧ m2 ≤ x + cw ch / 2
            · rw [if_pos hc2]
            · rw [if_neg hc2]
              simp [ridx]
        | some r =>
            by_cases hc2 : m2 > left2 ∧ m2 ≤ x + cw ch / 2
            · rw [if_pos hc2]
            · rw [if_neg hc2]
              rcases r with ⟨j, p⟩
              have hge := closestIdxAux_ge cw m2 rest (x + cw ch) (x + cw ch / 2) (i + 1) j p h
              simp only [ridx]
              omega
      · have hm2 : ¬ (m2 ≤ x + cw ch / 2) := by linarith
        rw [if_neg (fun hc => absurd hc.2 hm1), if_neg (fun hc => absurd hc.2 hm2)]
        have hrec := ih (x + cw ch) (x + cw ch / 2) (x + cw ch / 2) (i + 1)
          (by linarith [not_le.mp hm1]) (by linarith [not_le.mp hm2])
        have e : i + 1 + rest.length = i + (ch :: rest).length := by
          simp [List.length_cons]; omega
        rw [e] at hrec
        exact hrec

lemma closestIdxAux_none (cw : Char → ℚ) (mx : ℚ) :
    ∀ (l : List Char) (x left : ℚ) (i : Nat),
      (∀ c ∈ l, 0 ≤ cw c) → x + sumW cw l < mx →
      text_box.closestIdxAux cw mx l x left i = none := by
  intro l
  induction l with
  | nil => intro x left i _ _; simp [text_box.closestIdxAux]
  | cons ch rest ih =>
      intro x left i hnn hmx
      have hch : 0 ≤ cw ch := hnn ch (List.mem_cons_self ch rest)
      have hS : 0 ≤ sumW cw rest :=
        sumW_nonneg cw rest (fun c hc => hnn c (List.mem_cons_of_mem ch hc))
      rw [sumW_cons] at hmx
      simp only [text_box.closestIdxAux]
      rw [if_neg (fun hc => absurd hc.2 (by push_neg; linarith))]
      exact ih (x + cw ch) (x + cw ch / 2) (i + 1)
        (fun c hc => hnn c (List.mem_cons_of_mem ch hc)) (by linarith)

lemma closest_idx_fst (charW : FontSize → Char → ℚ) (fs : FontSize)
    (text : List Char) (tx tw m y : ℚ) (hm : ¬ (m ≤ tx)) :
    (text_box.closest_idx charW (m, y) tx tw fs text).1 =
      ridx (text_box.closestIdxAux (charW fs) m text tx tx 0) text.length := by
  simp only [text_box.closest_idx]
  rw [if_neg hm]
  cases h : text_box.closestIdxAux (charW fs) m text tx tx 0 with
  | none => simp [ridx]
  | some r => simp [ridx]

/-- C8 counterexample: with a collaborator metrics function reporting a
negative advance width (sum −4 for text "a"), the pointer placed at
text_x + text_width + 1 lies left of the text start and `closest_idx` returns
(0, text_x), not (len, text_x + text_width) — the claimed right-boundary
behaviour fails as stated (it needs nonnegative advance widths). -/
theorem claim_C8_counterexample :
    text_box.closest_idx (fun _ _ => (-4 : ℚ))
        (0 + sumW (fun _ => (-4 : ℚ)) ("a".toList) + 1, 0) 0
        (sumW (fun _ => (-4 : ℚ)) ("a".toList)) 12 ("a".toList) ≠
      (("a".toList).length, 0 + sumW (fun _ => (-4 : ℚ)) ("a".toList)) := by
  have hs : sumW (fun _ => (-4 : ℚ)) ("a".toList) = -4 := by
    norm_num [sumW]
  rw [hs]
  have hm : text_box.closest_idx (fun _ _ => (-4 : ℚ)) (0 + -4 + 1, 0) 0 (-4) 12
      ("a".toList) = (0, 0) := by
    norm_num [text_box.closest_idx]
  rw [hm]
  intro h
  exact absurd (congrArg Prod.fst h) (by decide)

/-- C8 amended: for fixed text, font size, text start x and text width, the
index returned by `closest_idx` is monotonically non-decreasing in the pointer
x (unconditionally); at pointer x = text_x − 1 it returns (0, text_x)
(unconditionally); and, provided every character's advance width is
nonnegative and text_width is the exact sum of the advance widths, at pointer
x = text_x + text_width + 1 it returns (len, text_x + text_width). -/
theorem claim_C8_closest_idx :
    (∀ (charW : FontSize → Char → ℚ) (fs : FontSize) (text : List Char)
       (tx tw m1 m2 y1 y2 : ℚ), m1 ≤ m2 →
       (text_box.closest_idx charW (m1, y1) tx tw fs text).1 ≤
         (text_box.closest_idx charW (m2, y2) tx tw fs text).1) ∧
    (∀ (charW : FontSize → Char → ℚ) (fs : FontSize) (text : List Char)
       (tx tw y : ℚ),
       text_box.closest_idx charW (tx - 1, y) tx tw fs text = (0, tx)) ∧
    (∀ (charW : FontSize → Char → ℚ) (fs : FontSize) (text : List Char)
       (tx y : ℚ), (∀ c ∈ text, 0 ≤ charW fs c) →
       text_box.closest_idx charW (tx + sumW (charW fs) text + 1, y) tx
         (sumW (charW fs) text) fs text =
         (text.length, tx + sumW (charW fs) text)) := by
  refine ⟨?_, ?_, ?_⟩
  · intro charW fs text tx tw m1 m2 y1 y2 h12
    by_cases h1 : m1 ≤ tx
    · have e1 : (text_box.closest_idx charW (m1, y1) tx tw fs text).1 = 0 := by
        simp [text_box.closest_idx, h1]
      rw [e1]
      exact Nat.zero_le _
    · have h2 : ¬ (m2 ≤ tx) := fun hh => h1 (le_trans h12 hh)
      rw [closest_idx_fst charW fs text tx tw m1 y1 h1,
        closest_idx_fst charW fs text tx tw m2 y2 h2]
      have hmono := closestIdxAux_mono (charW fs) m1 m2 h12 text tx tx tx 0
        (not_le.mp h1) (not_le.mp h2)
      simpa using hmono
  · intro charW fs text tx tw y
    have hle : tx - 1 ≤ tx := by linarith
    simp [text_box.closest_idx, hle]
  · intro charW fs text tx y hnn
    have hS : 0 ≤ sumW (charW fs) text := sumW_nonneg (charW fs) text hnn
    have hgt : ¬ (tx + sumW (charW fs) text + 1 ≤ tx) := by linarith
    have haux := closestIdxAux_none (charW fs) (tx + sumW (charW fs) text + 1)
      text tx tx 0 hnn (by linarith)
    simp [text_box.closest_idx, hgt, haux]

/-- Witness for C8: unit widths on text "ab" — monotonicity at a concrete
pointer pair, the left-of-text boundary and the right-of-text boundary all
realised. -/
theorem claim_C8_closest_idx_witness :
    ((text_box.closest_idx (fun _ _ => (1 : ℚ)) (1, 0) 0 2 12 ("ab".toList)).1 ≤
      (text_box.closest_idx (fun _ _ => (1 : ℚ)) (1, 0) 0 2 12 ("ab".toList)).1) ∧
    (text_box.closest_idx (fun _ _ => (1 : ℚ)) (0 - 1, 0) 0 2 12 ("ab".toList) = (0, 0)) ∧
    (text_box.closest_idx (fun _ _ => (1 : ℚ))
        (0 + sumW (fun _ => (1 : ℚ)) ("ab".toList) + 1, 0) 0
        (sumW (fun _ => (1 : ℚ)) ("ab".toList)) 12 ("ab".toList) =
      (("ab".toList).length, 0 + sumW (fun _ => (1 : ℚ)) ("ab".toList))) :=
  ⟨claim_C8_closest_idx.1 (fun _ _ => (1 : ℚ)) 12 ("ab".toList) 0 2 1 1 0 0 (le_refl 1),
   claim_C8_closest_idx.2.1 (fun _ _ => (1 : ℚ)) 12 ("ab".toList) 0 2 0,
   claim_C8_closest_idx.2.2 (fun _ _ => (1 : ℚ)) 12 ("ab".toList) 0 0
     (fun _ _ => zero_le_one)⟩

lemma foldl_mod_eq (f : Char → Nat) :
    ∀ (l : List Char) (a : Nat), a + (l.map f).sum < 2 ^ 32 →
      l.foldl (fun acc ch => (acc + f ch) % 2 ^ 32) a = a + (l.map f).sum := by
  intro l
  induction l with
  | nil => intro a _; simp
  | cons ch rest ih =>
      intro a hbound
      have hsum : ((ch :: rest).map f).sum = f ch + (rest.map f).sum := by simp
      rw [hsum] at hbound
      have hstep : (a + f ch) % 2 ^ 32 = a + f ch :=
        Nat.mod_eq_of_lt (by omega)
      rw [List.foldl_cons, hstep, ih (a + f ch) (by omega), hsum]
      omega

/-- C9 counterexample: with the character cache reporting an advance width of
15/2 for the character of "a", `label::width` returns 7 (the `u32`-truncated
width), not the exact sum 15/2 — the claimed exact summation fails as stated. -/
theorem claim_C9_counterexample :
    label.width (fun _ _ => (15 : ℚ) / 2) 12 ("a".toList) ≠
      sumW (fun _ => (15 : ℚ) / 2) ("a".toList) := by
  have h1 : label.width (fun _ _ => (15 : ℚ) / 2) 12 ("a".toList) = 7 := by
    have hc : rustCastU32 ((15 : ℚ) / 2) = 7 := by
      norm_num [rustCastU32]
      decide
    simp [label.width, hc]
  have h2 : sumW (fun _ => (15 : ℚ) / 2) ("a".toList) = 15 / 2 := by
    norm_num [sumW]
  rw [h1, h2]
  norm_num

/-- C9 amended: `label::width` returns the sum of each character's advance
width truncated toward zero by the saturating `f64` → `u32` cast, the
additions wrapping at 2^32; whenever that truncated sum stays below 2^32 it
equals exactly the sum of the truncated advance widths (it equals the exact
sum of the reported advance widths only when they are whole numbers). -/
theorem claim_C9_label_width (charW : FontSize → Char → ℚ) (size : FontSize)
    (text : List Char)
    (hbound : (text.map (fun ch => rustCastU32 (charW size ch))).sum < 2 ^ 32) :
    label.width charW size text =
      (((text.map (fun ch => rustCastU32 (charW size ch))).sum : Nat) : ℚ) := by
  have h := foldl_mod_eq (fun ch => rustCastU32 (charW size ch)) text 0
    (by simpa using hbound)
  simp only [label.width, h]
  norm_num

/-- Witness for C9: unit widths on "ab" — the truncated sum is 2, below 2^32,
and the width function returns it. -/
theorem claim_C9_label_width_witness :
    label.width (fun _ _ => (1 : ℚ)) 12 ("ab".toList) =
      (((("ab".toList).map (fun _ => rustCastU32 ((1 : ℚ)))).sum : Nat) : ℚ) :=
  claim_C9_label_width (fun _ _ => (1 : ℚ)) 12 ("ab".toList)
    (by norm_num [rustCastU32])

/-- Relevant subset of the keyboard keys matched by the text box
(`piston::input::keyboard::Key`); every other key is `Other` (the source's
`_ => ()` arm). -/
inductive Key where
  | Backspace
  | Left
  | Right
  | Return
  | Other
deriving DecidableEq, Repr

/-- Character of a buffer at an index (`char_at` in the source), with an
arbitrary default out of range (in the draw the index is always in range). -/
def char_at (l : List Char) (i : Nat) : Char := l.getD i (Char.ofNat 0)

namespace text_box

/-- Entered-text loop of `TextBox::draw` (text_box.rs lines 374-391), run when
the frame's state is Capturing with a zero-width selection: for each entered
fragment, its pixel width is accumulated; while the running cursor x plus the
fragment width stays strictly inside `pad_pos.x + pad_dim.x − TEXT_PADDING`
the fragment is spliced into the buffer at the frame-initial caret byte index
`idx` and `new_idx` advances by the fragment length, otherwise the loop
breaks.  State threaded: (buffer, new_idx, new_cursor_x); `idx` stays fixed
for the whole frame. -/
def insertLoop (cw : Char → ℚ) (padPosX padDimX : ℚ) (idx : Nat) :
    List (List Char) → List Char → Nat → ℚ → List Char × Nat × ℚ
  | [], text, new_idx, new_cursor_x => (text, new_idx, new_cursor_x)
  | t :: rest, text, new_idx, new_cursor_x =>
      let entered_text_width := sumW cw t
      if new_cursor_x + entered_text_width < padPosX + padDimX - TEXT_PADDING then
        insertLoop cw padPosX padDimX idx rest
          (text.take idx ++ t ++ text.drop idx)
          (new_idx + t.length) (new_cursor_x + entered_text_width)
      else (text, new_idx, new_cursor_x)

/-- Control-key loop of `TextBox::draw` (text_box.rs lines 394-449), run when
the frame's state is Capturing with a zero-width selection: Backspace removes
the character before the frame-initial caret `idx` (when the buffer is
non-empty, at least `idx` long, and `idx > 0`), Left/Right move `new_idx` and
adjust the cursor x by the adjacent character's advance width, Return hands
the buffer to the commit callback (modelled as a buffer transformer) and then
re-clamps `new_idx` and recomputes the cursor x from `text_pos.x`.  State
threaded: (buffer, new_idx, new_cursor_x); `idx` stays fixed. -/
def keyLoop (cw : Char → ℚ) (cb : Option (List Char → List Char)) (textPosX : ℚ)
    (idx : Nat) :
    List Key → List Char → Nat → ℚ → List Char × Nat × ℚ
  | [], text, new_idx, new_cursor_x => (text, new_idx, new_cursor_x)
  | k :: rest, text, new_idx, new_cursor_x =>
      match k with
      | Key.Backspace =>
          if 0 < text.length ∧ idx ≤ text.length ∧ 0 < idx then
            let rem_idx := idx - 1
            keyLoop cw cb textPosX idx rest
              (text.take rem_idx ++ text.drop idx) rem_idx
              (new_cursor_x - cw (char_at text rem_idx))
          else keyLoop cw cb textPosX idx rest text new_idx new_cursor_x
      | Key.Left =>
          if 0 < idx then
            keyLoop cw cb textPosX idx rest text (new_idx - 1)
              (new_cursor_x - cw (char_at text (idx - 1)))
          else keyLoop cw cb textPosX idx rest text new_idx new_cursor_x
      | Key.Right =>
          if idx < text.length then
            keyLoop cw cb textPosX idx rest text (new_idx + 1)
              (new_cursor_x + cw (char_at text idx))
          else keyLoop cw cb textPosX idx rest text new_idx new_cursor_x
      | Key.Return =>
          if 0 < text.length then
            match cb with
            | some callback =>
                let text2 := callback text
                keyLoop cw cb textPosX idx rest text2
                  (min new_idx text2.length)
                  (text2.foldl (fun acc c => acc + cw c) textPosX)
            | none => keyLoop cw cb textPosX idx rest text new_idx new_cursor_x
          else keyLoop cw cb textPosX idx rest text new_idx new_cursor_x
      | Key.Other => keyLoop cw cb textPosX idx rest text new_idx new_cursor_x

end text_box

/-- C4: the code's entered-text loop evaluated at the failing input.  The claim
says each fragment, taken in order, is spliced at the caret with the caret
advancing past it, so fragments ["a", "b"] typed into an empty buffer with
caret 0 (unit advance widths, pad from x = 0 of width 100) should yield "ab";
the code splices every fragment at the frame-initial caret index and yields
"ba". -/
theorem claim_C4_insert_at_stale_index :
    text_box.insertLoop (fun _ => (1 : ℚ)) 0 100 0
        ["a".toList, "b".toList] [] 0 0 =
      ("ba".toList, 2, 2) := by
  norm_num [text_box.insertLoop, sumW, text_box.TEXT_PADDING]

/-- C5: with a zero-width Capturing caret at `idx` (0 < idx ≤ buffer length,
buffer non-empty) and a Backspace pressed this frame, the character
immediately before the caret is removed, the caret moves back by one, and that
character's advance width is subtracted from the cursor x. -/
theorem claim_C5_backspace (cw : Char → ℚ) (cb : Option (List Char → List Char))
    (textPosX : ℚ) (text : List Char) (idx : Nat) (new_cursor_x : ℚ)
    (h1 : 0 < idx) (h2 : idx ≤ text.length) (h3 : text ≠ []) :
    text_box.keyLoop cw cb textPosX idx [Key.Backspace] text idx new_cursor_x =
      (text.eraseIdx (idx - 1), idx - 1,
        new_cursor_x - cw (char_at text (idx - 1))) := by
  have hlen : 0 < text.length := List.length_pos.mpr h3
  have herase : text.eraseIdx (idx - 1) = text.take (idx - 1) ++ text.drop idx := by
    rw [List.eraseIdx_eq_take_drop_succ]
    have : idx - 1 + 1 = idx := by omega
    rw [this]
  simp only [text_box.keyLoop]
  rw [herase,
    if_pos (show 0 < text.length ∧ idx ≤ text.length ∧ 0 < idx from ⟨hlen, h2, h1⟩)]

/-- Witness for C5: buffer "abc" with caret at index 3 and one Backspace
yields buffer "ab", caret index 2, and one unit subtracted from the cursor x
(unit advance widths). -/
theorem claim_C5_backspace_witness :
    text_box.keyLoop (fun _ => (1 : ℚ)) none 0 3 [Key.Backspace] ("abc".toList) 3 7 =
      ("ab".toList, 2, 6) := by
  rw [claim_C5_backspace (fun _ => (1 : ℚ)) none 0 ("abc".toList) 3 7
    (by decide) (by decide) (by decide)]
  norm_num

/-- C1: every listed row of the transition tables of spec sections 4.4 and 4.5
holds of the corresponding code transition function: whenever the text-box
table lists a successor for (hit element, previous state, button), the code's
`text_box.get_new_state` returns exactly it, and the toggle's
`toggle.get_new_state` agrees with the toggle table on every
(is_over, previous state, button) combination. -/
theorem claim_C1_transition_tables :
    (∀ (e : text_box.Element) (s : text_box.State) (m : Mouse) (s' : text_box.State),
      text_box.specTable e s m.left = some s' → text_box.get_new_state e s m = s') ∧
    (∀ (o : Bool) (s : toggle.State) (m : Mouse),
      toggle.get_new_state o s m = toggle.specTable o s m.left) := by
  constructor
  · intro e s m s' h
    rcases m with ⟨mp, ml⟩
    rcases s with sel | u
    · rcases sel with ⟨a, st, en⟩
      cases ml <;> cases e <;> cases a <;>
        simp_all [text_box.specTable, text_box.get_new_state]
    · cases ml <;> cases e <;> cases u <;>
        simp_all [text_box.specTable, text_box.get_new_state]
  · intro o s m
    rcases m with ⟨mp, ml⟩
    cases o <;> cases s <;> cases ml <;> rfl

/-- Witness for C1: the table row (Capturing(anchor=None), Nil, Down) is
realised by the code at a concrete input. -/
theorem claim_C1_transition_tables_witness :
    text_box.get_new_state text_box.Element.Nill
      (text_box.State.Capturing ⟨text_box.Anchor.None, 0, 0⟩)
      ⟨(0, 0), ButtonState.Down⟩ = text_box.State.Uncaptured text_box.Uncaptured.Normal :=
  claim_C1_transition_tables.1 text_box.Element.Nill
    (text_box.State.Capturing ⟨text_box.Anchor.None, 0, 0⟩)
    ⟨(0, 0), ButtonState.Down⟩ (text_box.State.Uncaptured text_box.Uncaptured.Normal) rfl

/-- C2 counterexample: the claim maps every Capturing(_) text-box state to the
Active visual state (`rectangle::State::Clicked`), but the code
(text_box.rs line 89) maps Capturing(_) to the Normal visual state. -/
theorem claim_C2_counterexample :
    (text_box.State.Capturing (text_box.Selection.from_index 0)).as_rectangle_state =
      rectangle.State.Normal ∧
    (text_box.State.Capturing (text_box.Selection.from_index 0)).as_rectangle_state ≠
      rectangle.State.Clicked := by
  constructor
  · rfl
  · decide

/-- C2 amended: the render-state projection maps the Clicked toggle state to
the Active visual state, Uncaptured(Highlighted) and Highlighted to the
Highlighted visual state, and every other state — including every
Capturing(_) text-box state — to the Normal visual state. -/
theorem claim_C2_render_projection :
    (∀ sel : text_box.Selection,
      (text_box.State.Capturing sel).as_rectangle_state = rectangle.State.Normal) ∧
    (text_box.State.Uncaptured text_box.Uncaptured.Highlighted).as_rectangle_state =
      rectangle.State.Highlighted ∧
    (text_box.State.Uncaptured text_box.Uncaptured.Normal).as_rectangle_state =
      rectangle.State.Normal ∧
    toggle.State.Clicked.as_rectangle_state = rectangle.State.Clicked ∧
    toggle.State.Highlighted.as_rectangle_state = rectangle.State.Highlighted ∧
    toggle.State.Normal.as_rectangle_state = rectangle.State.Normal :=
  ⟨fun _ => rfl, rfl, rfl, rfl, rfl, rfl⟩

/-- C6: with a widget state stored for the identifier, `set_state` fails
fatally if and only if the stored Widget variant tag differs from the new
state's variant tag; when the tags match it stores the new state and records
this frame's placement. -/
theorem claim_C6_set_state (ui : UiState) (ui_id : Nat) (new_state : Widget)
    (pos : Point) (dim : Dimensions) (d w : Widget)
    (hw : ui.widgets ui_id = some w) :
    ((∃ e, set_state ui ui_id new_state pos dim d = Except.error e) ↔
      w.matches new_state = false) ∧
    (w.matches new_state = true →
      ∃ ui2, set_state ui ui_id new_state pos dim d = Except.ok ui2 ∧
        ui2.widgets ui_id = some new_state ∧ ui2.places ui_id = some (pos, dim)) := by
  have hget : Ui.get_widget ui ui_id d = (ui, w) := by
    simp [Ui.get_widget, hw]
  constructor
  · constructor
    · rintro ⟨e, he⟩
      by_contra hne
      have hm : w.matches new_state = true := by
        cases h : w.matches new_state
        · exact absurd h hne
        · rfl
      simp [set_state, hget, hm] at he
    · intro hne
      exact ⟨"The Widget variant returned by Ui is different to that which was requested",
        by simp [set_state, hget, hne]⟩
  · intro hm
    refine ⟨Ui.set_place
        ⟨fun i => if i = ui_id then some new_state else ui.widgets i, ui.places, ui.mouse⟩
        ui_id pos dim, ?_, ?_, ?_⟩
    · simp [set_state, hget, hm]
    · simp [Ui.set_place]
    · simp [Ui.set_place]

/-- Witness for C6: storing a Toggle state over a stored Toggle state succeeds
and records the new state and placement. -/
theorem claim_C6_set_state_witness :
    ∃ ui2, set_state ⟨fun _ => some (Widget.Toggle toggle.State.Normal), fun _ => none,
        ⟨(0, 0), ButtonState.Up⟩⟩ 0 (Widget.Toggle toggle.State.Clicked) (1, 2) (3, 4)
        toggle.default_widget = Except.ok ui2 ∧
      ui2.widgets 0 = some (Widget.Toggle toggle.State.Clicked) ∧
      ui2.places 0 = some ((1, 2), (3, 4)) :=
  (claim_C6_set_state ⟨fun _ => some (Widget.Toggle toggle.State.Normal), fun _ => none,
      ⟨(0, 0), ButtonState.Up⟩⟩ 0 (Widget.Toggle toggle.State.Clicked) (1, 2) (3, 4)
      toggle.default_widget (Widget.Toggle toggle.State.Normal) rfl).2 rfl

/-- C3: in a frame, the toggle invokes its configured callback if and only if
is_over is true, the previous (stored) state is Clicked and the new state is
Highlighted, and it then passes the logical negation of the current boolean
value; on every other combination, or with no callback configured, nothing is
invoked. -/
theorem claim_C3_toggle_callback (t : Toggle) (ui : UiState) (prev : toggle.State)
    (v : Bool) (hw : ui.widgets t.ui_id = some (Widget.Toggle prev)) :
    toggleDrawCallbackArg t ui = some v ↔
      (t.maybe_callback.isSome = true ∧
       rectangle.is_over t.pos ui.mouse.pos t.dim = true ∧
       prev = toggle.State.Clicked ∧
       toggle.get_new_state (rectangle.is_over t.pos ui.mouse.pos t.dim) prev ui.mouse =
         toggle.State.Highlighted ∧
       v = !t.value) := by
  have hget : Ui.get_widget ui t.ui_id toggle.default_widget = (ui, Widget.Toggle prev) := by
    simp [Ui.get_widget, hw]
  have harg : toggleDrawCallbackArg t ui =
      toggleCallbackCall t.maybe_callback t.value
        (rectangle.is_over t.pos ui.mouse.pos t.dim) prev
        (toggle.get_new_state (rectangle.is_over t.pos ui.mouse.pos t.dim) prev ui.mouse) := by
    simp [toggleDrawCallbackArg, Toggle.draw, hget, set_state, Widget.matches]
  rw [harg]
  generalize rectangle.is_over t.pos ui.mouse.pos t.dim = io
  generalize toggle.get_new_state io prev ui.mouse = ns
  cases hcb : t.maybe_callback with
  | none => simp [toggleCallbackCall]
  | some u =>
      cases io <;> cases prev <;> cases ns <;> cases hv : t.value <;>
        simp [toggleCallbackCall]

/-- Witness for C3: with a callback configured, value false, the pointer over
the control, stored state Clicked and the button released this frame, the
callback is invoked with true (the spec's press-over / release-over scenario). -/
theorem claim_C3_toggle_callback_witness :
    toggleDrawCallbackArg
      ⟨0, (0, 0), (4, 4), some (), none, none, none, none, none, none, false⟩
      ⟨fun _ => some (Widget.Toggle toggle.State.Clicked), fun _ => none,
        ⟨(0, 0), ButtonState.Up⟩⟩ = some true := by
  have hio : rectangle.is_over (0, 0) (0, 0) (4, 4) = true := by
    simp [rectangle.is_over, zero_le_four]
  exact (claim_C3_toggle_callback
      ⟨0, (0, 0), (4, 4), some (), none, none, none, none, none, none, false⟩
      ⟨fun _ => some (Widget.Toggle toggle.State.Clicked), fun _ => none,
        ⟨(0, 0), ButtonState.Up⟩⟩ toggle.State.Clicked true rfl).mpr
    ⟨rfl, hio, rfl, by rw [hio]; rfl, rfl⟩

/-- C10: drawing a toggle leaves every caller-visible Toggle field unchanged —
the draw succeeds and returns the builder struct exactly as passed in — and
the only data handed to the caller is the callback argument, which is always
the negation of the current boolean value; the widget never writes the boolean
itself. -/
theorem claim_C10_draw_preserves_toggle (t : Toggle) (ui : UiState)
    (prev : toggle.State) (hw : ui.widgets t.ui_id = some (Widget.Toggle prev)) :
    (∃ ui2 ev, Toggle.draw t ui = Except.ok (t, ui2, ev)) ∧
    (∀ v, toggleDrawCallbackArg t ui = some v → v = !t.value) := by
  have hget : Ui.get_widget ui t.ui_id toggle.default_widget = (ui, Widget.Toggle prev) := by
    simp [Ui.get_widget, hw]
  constructor
  · have hdraw : Toggle.draw t ui = Except.ok (t,
        Ui.set_place
          ⟨fun i => if i = t.ui_id then
              some (Widget.Toggle (toggle.get_new_state
                (rectangle.is_over t.pos ui.mouse.pos t.dim) prev ui.mouse))
            else ui.widgets i, ui.places, ui.mouse⟩ t.ui_id t.pos t.dim,
        toggleCallbackCall t.maybe_callback t.value
          (rectangle.is_over t.pos ui.mouse.pos t.dim) prev
          (toggle.get_new_state (rectangle.is_over t.pos ui.mouse.pos t.dim)
            prev ui.mouse)) := by
      simp [Toggle.draw, hget, set_state, Widget.matches]
    exact ⟨_, _, hdraw⟩
  · intro v hv
    have harg : toggleDrawCallbackArg t ui =
        toggleCallbackCall t.maybe_callback t.value
          (rectangle.is_over t.pos ui.mouse.pos t.dim) prev
          (toggle.get_new_state (rectangle.is_over t.pos ui.mouse.pos t.dim) prev ui.mouse) := by
      simp [toggleDrawCallbackArg, Toggle.draw, hget, set_state, Widget.matches]
    rw [harg] at hv
    generalize rectangle.is_over t.pos ui.mouse.pos t.dim = io at hv
    generalize toggle.get_new_state io prev ui.mouse = ns at hv
    cases hcb : t.maybe_callback with
    | none => rw [hcb] at hv; simp [toggleCallbackCall] at hv
    | some u =>
        rw [hcb] at hv
        cases io <;> cases prev <;> cases ns <;> cases hval : t.value <;>
          rw [hval] at hv <;> simp [toggleCallbackCall] at hv <;> simp [hv, hval]

/-- Witness for C10: a concrete draw over a stored Clicked state succeeds,
returns the builder struct unchanged, and any callback argument is the negated
value. -/
theorem claim_C10_draw_preserves_toggle_witness :
    (∃ ui2 ev, Toggle.draw
        ⟨0, (0, 0), (4, 4), some (), none, none, none, none, none, none, false⟩
        ⟨fun _ => some (Widget.Toggle toggle.State.Clicked), fun _ => none,
          ⟨(0, 0), ButtonState.Up⟩⟩ =
      Except.ok (⟨0, (0, 0), (4, 4), some (), none, none, none, none, none, none, false⟩,
        ui2, ev)) ∧
    (∀ v, toggleDrawCallbackArg
        ⟨0, (0, 0), (4, 4), some (), none, none, none, none, none, none, false⟩
        ⟨fun _ => some (Widget.Toggle toggle.State.Clicked), fun _ => none,
          ⟨(0, 0), ButtonState.Up⟩⟩ = some v → v = !false) :=
  claim_C10_draw_preserves_toggle
    ⟨0, (0, 0), (4, 4), some (), none, none, none, none, none, none, false⟩
    ⟨fun _ => some (Widget.Toggle toggle.State.Clicked), fun _ => none,
      ⟨(0, 0), ButtonState.Up⟩⟩ toggle.State.Clicked rfl
